import Mathlib

/-!
Verification of the ASCII-art waveform renderer of the
`waveform-render-vscode` extension (`src/extension.ts`).

The in-scope code is the pure core: the helper `padEnd` and the function
`generateAsciiArt`.  Both are embedded here following the JavaScript
semantics of the source:

* a JS object field that may be missing on an input record is embedded as
  an `Option`;
* accessing `.length` or calling `.split` on `undefined` throws a
  `TypeError`, so the renderer is embedded as a function into
  `Except JsError String` — a thrown exception is `Except.error`, a normal
  return is `Except.ok`;
* `padChar.repeat(k)` concatenates `k` copies of the fill string;
* the wave-mapping object literal is embedded as a lookup function with an
  `Option` result (`undefined` = `none`), and `waveMapping[char] || '????'`
  becomes `Option.getD` (all table entries are non-empty strings, hence
  truthy);
* `wave.split('').map(f).join('')` becomes
  `String.join ((wave.toList).map f)`.
-/

/-- The only JS exception the embedded core can throw: a `TypeError` from
accessing a property of `undefined`. -/
inductive JsError where
  | typeError
deriving DecidableEq, Repr

/-- One entry of the WaveDrom `signal` array.  `name` and `wave` may be
missing on the JSON record (then they are `none`); the optional `data`
field is carried to show the renderer ignores it. -/
structure Signal where
  name : Option String
  wave : Option String
  data : Option (List String) := none
deriving DecidableEq, Repr

/-- JS `s.repeat n`: `n` concatenated copies of `s`. -/
def strRepeat (s : String) : Nat → String
  | 0 => ""
  | n + 1 => s ++ strRepeat s n

/-- Embedding of `padEnd(str, targetLength, padChar = ' ')` from
`src/extension.ts`: return `str` unchanged when it is already long enough,
otherwise append `targetLength - str.length` copies of `padChar`. -/
def padEnd (str : String) (targetLength : Nat) (padChar : String := " ") : String :=
  if str.length ≥ targetLength then str
  else str ++ strRepeat padChar (targetLength - str.length)

/-- Embedding of the `waveMapping` object literal: lookup of a single
character, `none` for a character that is not a key of the object. -/
def waveMapping (c : Char) : Option String :=
  if c = 'P' then some "|‾‾‾‾|"
  else if c = '0' then some "____"
  else if c = '1' then some "‾‾‾‾"
  else if c = '.' then some "    "
  else if c = 'x' then some "xxxx"
  else if c = '=' then some "===="
  else none

/-- `waveMapping[char] || '????'` — the looked-up glyph run, with the
placeholder as fallback. -/
def glyphOf (c : Char) : String :=
  (waveMapping c).getD "????"

/-- `signal.wave.split('').map(char => waveMapping[char] || '????').join('')`. -/
def renderWave (w : String) : String :=
  String.join (w.toList.map glyphOf)

/-- The line contributed by one signal whose `name` and `wave` are both
present: label padded to 10, literal ": ", expanded wave, newline. -/
def renderLine (name wave : String) : String :=
  padEnd name 10 ++ ": " ++ renderWave wave ++ "\n"

/-- The per-signal body of the loop in `generateAsciiArt`.  The source
first evaluates `padEnd(signal.name, 10)` — a `TypeError` when `name` is
`undefined` — and then `signal.wave.split('')` — a `TypeError` when `wave`
is `undefined`. -/
def lineOf (s : Signal) : Except JsError String :=
  match s.name with
  | none => .error .typeError
  | some n =>
    match s.wave with
    | none => .error .typeError
    | some w => .ok (renderLine n w)

/-- Embedding of `generateAsciiArt`: concatenate the per-signal lines in
input order; a thrown `TypeError` propagates out of the loop (the
partially accumulated string is discarded with the stack frame). -/
def generateAsciiArt : List Signal → Except JsError String
  | [] => .ok ""
  | s :: rest => do
    let line ← lineOf s
    let tail ← generateAsciiArt rest
    pure (line ++ tail)

/-- Claim-side glyph table, written from the claim wording of C2 (to be
compared with the source-side `waveMapping`/`glyphOf`). -/
def specGlyph (c : Char) : String :=
  if c = 'P' then "|‾‾‾‾|"
  else if c = '0' then "____"
  else if c = '1' then "‾‾‾‾"
  else if c = '.' then "    "
  else if c = 'x' then "xxxx"
  else if c = '=' then "===="
  else "????"

/-- Claim-side run width of a recognized token, from the wording of C5:
6 for a pulse, 4 for every other recognized token. -/
def specRunWidth (c : Char) : Nat :=
  if c = 'P' then 6 else 4

/-! ### Helper lemmas -/

theorem strRepeat_length (s : String) (n : Nat) :
    (strRepeat s n).length = n * s.length := by
  induction n with
  | zero => simp [strRepeat]
  | succ k ih => simp [strRepeat, ih, Nat.succ_mul, Nat.add_comm]

theorem glyphOf_eq_specGlyph (c : Char) : glyphOf c = specGlyph c := by
  unfold glyphOf waveMapping specGlyph
  split_ifs <;> rfl

theorem join_cons (s : String) (l : List String) :
    String.join (s :: l) = s ++ String.join l := by
  apply String.ext
  simp

theorem join_length (l : List String) :
    (String.join l).length = (l.map String.length).sum := by
  induction l with
  | nil => rfl
  | cons s t ih => simp [join_cons, ih]

theorem glyphOf_length_of_recognized (c : Char) (_h : (waveMapping c).isSome) :
    (glyphOf c).length = specRunWidth c := by
  unfold glyphOf specRunWidth waveMapping
  split_ifs <;> rfl

theorem lineOf_congr (s t : Signal) (hn : s.name = t.name) (hw : s.wave = t.wave) :
    lineOf s = lineOf t := by
  unfold lineOf
  rw [hn, hw]

theorem generateAsciiArt_eq_join_mapM (sigs : List Signal) :
    generateAsciiArt sigs = Except.map String.join (sigs.mapM lineOf) := by
  induction sigs with
  | nil => rfl
  | cons s rest ih =>
    simp only [generateAsciiArt, List.mapM_cons, ih]
    cases lineOf s with
    | error e => rfl
    | ok line =>
      cases hrest : rest.mapM lineOf with
      | error e => simp [Except.map, hrest, Except.bind, bind]
      | ok tail =>
        simp [Except.map, hrest, Except.bind, bind, join_cons, pure, Except.pure]

/-! ### Claims -/

/-- Claim C1 (counterexample): the renderer is claimed never to raise, with
absent `name`/`wave` treated as empty strings; but on a signal whose `name`
is absent it throws a `TypeError` instead of producing any rendering. -/
theorem c1_renderer_raises_counterexample :
    generateAsciiArt [Signal.mk none (some "P") none] = Except.error JsError.typeError := rfl

/-- Claim C1 (amended): on every signal list in which each signal has both
`name` and `wave` present, the renderer never raises — it returns a
rendering for every such list — and an unrecognized wave token degrades to
the placeholder glyph instead of aborting; a signal with absent `name` or
`wave`, however, makes the renderer throw a `TypeError`. -/
theorem c1_total_on_present_fields (sigs : List Signal)
    (h : ∀ s ∈ sigs, s.name.isSome ∧ s.wave.isSome) :
    (∃ out, generateAsciiArt sigs = Except.ok out) ∧
      (∀ c, waveMapping c = none → glyphOf c = "????") ∧
      (∀ s : Signal, s.name = none ∨ s.wave = none →
        lineOf s = Except.error JsError.typeError) := by
  refine ⟨?_, ?_, ?_⟩
  · induction sigs with
    | nil => exact ⟨"", rfl⟩
    | cons s rest ih =>
      obtain ⟨hn, hw⟩ := h s (List.mem_cons_self s rest)
      obtain ⟨n, hn⟩ := Option.isSome_iff_exists.mp hn
      obtain ⟨w, hw⟩ := Option.isSome_iff_exists.mp hw
      obtain ⟨tail, htail⟩ := ih (fun t ht => h t (List.mem_cons_of_mem s ht))
      refine ⟨renderLine n w ++ tail, ?_⟩
      simp [generateAsciiArt, lineOf, hn, hw, htail, Except.bind, bind, pure, Except.pure]
  · intro c hc
    simp [glyphOf, hc]
  · intro s hs
    rcases hs with hn | hw
    · simp [lineOf, hn]
    · cases hname : s.name with
      | none => simp [lineOf, hname]
      | some n => simp [lineOf, hname, hw]

/-- Witness for C1 (amended) at a concrete two-signal list containing an
unrecognized wave token. -/
theorem c1_total_on_present_fields_witness :
    (∃ out, generateAsciiArt
        [Signal.mk (some "clk") (some "P.") none,
         Signal.mk (some "d") (some "q") none] = Except.ok out) ∧
      (∀ c, waveMapping c = none → glyphOf c = "????") ∧
      (∀ s : Signal, s.name = none ∨ s.wave = none →
        lineOf s = Except.error JsError.typeError) :=
  c1_total_on_present_fields
    [Signal.mk (some "clk") (some "P.") none, Signal.mk (some "d") (some "q") none]
    (by intro s hs; fin_cases hs <;> exact ⟨rfl, rfl⟩)

/-- Claim C2: for a signal whose `wave` is a string, the wave field of its
output line is the in-order, separator-free concatenation of one glyph run
per wave character, with the run of each character given by the claim's
table (`specGlyph`, with "????" for every unrecognized character). -/
theorem c2_wave_field_concat_of_glyphs (n w : String) :
    generateAsciiArt [Signal.mk (some n) (some w) none] =
      Except.ok (padEnd n 10 ++ ": " ++ String.join (w.toList.map specGlyph) ++ "\n") := by
  have hmap : w.data.map glyphOf = w.data.map specGlyph :=
    List.map_congr_left (fun c _ => glyphOf_eq_specGlyph c)
  simp [generateAsciiArt, lineOf, renderLine, renderWave, String.toList, hmap,
    Except.bind, bind, pure, Except.pure]

/-- Claim C3: the label field is the name left-aligned and space-padded to
exactly 10 characters when shorter than 10, and the name unmodified (no
truncation) when its length is at least 10; it is followed by ": ". -/
theorem c3_label_field (n w : String) :
    (n.length < 10 →
       padEnd n 10 = n ++ strRepeat " " (10 - n.length) ∧ (padEnd n 10).length = 10) ∧
    (n.length ≥ 10 → padEnd n 10 = n) ∧
    generateAsciiArt [Signal.mk (some n) (some w) none] =
      Except.ok (padEnd n 10 ++ ": " ++ renderWave w ++ "\n") := by
  refine ⟨?_, ?_, ?_⟩
  · intro hlt
    constructor
    · simp [padEnd, Nat.not_le.mpr hlt]
    · have hone : (" " : String).length = 1 := rfl
      simp [padEnd, Nat.not_le.mpr hlt, strRepeat_length, hone]
      omega
  · intro hge
    simp [padEnd, hge]
  · simp [generateAsciiArt, lineOf, renderLine, Except.bind, bind, pure, Except.pure]

/-- Witness for C3 at the names "clk" (short) and "Acknowledged" (length 12). -/
theorem c3_label_field_witness :
    (("clk".length < 10 →
       padEnd "clk" 10 = "clk" ++ strRepeat " " (10 - "clk".length) ∧
         (padEnd "clk" 10).length = 10) ∧
     ("clk".length ≥ 10 → padEnd "clk" 10 = "clk") ∧
     generateAsciiArt [Signal.mk (some "clk") (some "P") none] =
       Except.ok (padEnd "clk" 10 ++ ": " ++ renderWave "P" ++ "\n")) ∧
    (("Acknowledged".length < 10 →
       padEnd "Acknowledged" 10 =
         "Acknowledged" ++ strRepeat " " (10 - "Acknowledged".length) ∧
         (padEnd "Acknowledged" 10).length = 10) ∧
     ("Acknowledged".length ≥ 10 → padEnd "Acknowledged" 10 = "Acknowledged") ∧
     generateAsciiArt [Signal.mk (some "Acknowledged") (some "P") none] =
       Except.ok (padEnd "Acknowledged" 10 ++ ": " ++ renderWave "P" ++ "\n")) :=
  ⟨c3_label_field "clk" "P", c3_label_field "Acknowledged" "P"⟩

/-- Claim C4 (counterexample): a signal with both `name` and `wave` missing
is claimed to render as ten spaces, ": " and a newline; in fact the
renderer throws a `TypeError` and produces no line at all. -/
theorem c4_missing_fields_counterexample :
    generateAsciiArt [Signal.mk none none none] ≠
      Except.ok (strRepeat " " 10 ++ ": " ++ "\n") := by
  intro h
  exact Except.noConfusion h

/-- Claim C4 (amended): on a signal with both `name` and `wave` missing the
renderer throws a `TypeError` (from reading `.length` of the absent name)
instead of producing a spacer line. -/
theorem c4_missing_fields_typeerror :
    generateAsciiArt [Signal.mk none none none] = Except.error JsError.typeError := rfl

/-- Claim C5: for a wave made only of recognized tokens, the length of the
rendered wave field is the sum of the tokens' fixed run widths: 6 for 'P'
and 4 for every other recognized token. -/
theorem c5_recognized_wave_length (w : String)
    (h : ∀ c ∈ w.toList, (waveMapping c).isSome) :
    (renderWave w).length = (w.toList.map specRunWidth).sum := by
  unfold renderWave
  rw [join_length, List.map_map]
  congr 1
  exact List.map_congr_left (fun c hc => glyphOf_length_of_recognized c (h c hc))

/-- Witness for C5 at the wave "P01.x=": width 6 + 4 + 4 + 4 + 4 + 4 = 26. -/
theorem c5_recognized_wave_length_witness :
    (renderWave "P01.x=").length = ("P01.x=".toList.map specRunWidth).sum :=
  c5_recognized_wave_length "P01.x=" (by decide)

/-- Claim C6: the output does not depend on the `data` field — two signal
lists that agree pointwise on `name` and `wave` render identically, with
the same error behavior, whatever their `data` fields. -/
theorem c6_data_field_irrelevant (s₁ s₂ : List Signal)
    (hn : s₁.map Signal.name = s₂.map Signal.name)
    (hw : s₁.map Signal.wave = s₂.map Signal.wave) :
    generateAsciiArt s₁ = generateAsciiArt s₂ := by
  induction s₁ generalizing s₂ with
  | nil =>
    cases s₂ with
    | nil => rfl
    | cons b t => simp at hn
  | cons a t ih =>
    cases s₂ with
    | nil => simp at hn
    | cons b u =>
      simp only [List.map_cons, List.cons.injEq] at hn hw
      simp only [generateAsciiArt, lineOf_congr a b hn.1 hw.1, ih u hn.2 hw.2]

/-- Witness for C6: two concrete singleton lists differing only in `data`
render identically. -/
theorem c6_data_field_irrelevant_witness :
    generateAsciiArt [Signal.mk (some "Data") (some "x=") (some ["head", "body"])] =
      generateAsciiArt [Signal.mk (some "Data") (some "x=") none] :=
  c6_data_field_irrelevant
    [Signal.mk (some "Data") (some "x=") (some ["head", "body"])]
    [Signal.mk (some "Data") (some "x=") none] rfl rfl

/-- Claim C7: rendering is deterministic (the same list renders to the same
output), the output is the in-order join of per-signal lines — each
signal's line depends only on that signal — and permuting the input
permutes the per-signal lines by the same permutation. -/
theorem c7_deterministic_order_preserving (s₁ s₂ : List Signal) (h : s₁.Perm s₂) :
    generateAsciiArt s₁ = generateAsciiArt s₁ ∧
      generateAsciiArt s₁ = Except.map String.join (s₁.mapM lineOf) ∧
      (s₁.map lineOf).Perm (s₂.map lineOf) :=
  ⟨rfl, generateAsciiArt_eq_join_mapM s₁, h.map lineOf⟩

/-- Witness for C7 at a concrete two-element swap. -/
theorem c7_deterministic_order_preserving_witness :
    generateAsciiArt
        [Signal.mk (some "a") (some "0") none, Signal.mk (some "b") (some "1") none] =
      generateAsciiArt
        [Signal.mk (some "a") (some "0") none, Signal.mk (some "b") (some "1") none] ∧
      generateAsciiArt
          [Signal.mk (some "a") (some "0") none, Signal.mk (some "b") (some "1") none] =
        Except.map String.join
          ([Signal.mk (some "a") (some "0") none,
            Signal.mk (some "b") (some "1") none].mapM lineOf) ∧
      ([Signal.mk (some "a") (some "0") none,
        Signal.mk (some "b") (some "1") none].map lineOf).Perm
        ([Signal.mk (some "b") (some "1") none,
          Signal.mk (some "a") (some "0") none].map lineOf) :=
  c7_deterministic_order_preserving
    [Signal.mk (some "a") (some "0") none, Signal.mk (some "b") (some "1") none]
    [Signal.mk (some "b") (some "1") none, Signal.mk (some "a") (some "0") none]
    (List.Perm.swap _ _ _)

/-- Claim C8: the padding helper is left-aligned and a no-op on
already-long input: when the string reaches the target width it is
returned unchanged, otherwise the result is the string followed only by
copies of the fill character. -/
theorem c8_padEnd_left_aligned (s : String) (n : Nat) (c : Char) :
    (s.length ≥ n → padEnd s n (String.singleton c) = s) ∧
    (s.length < n →
      padEnd s n (String.singleton c) =
        s ++ strRepeat (String.singleton c) (n - s.length)) := by
  constructor
  · intro hge
    simp [padEnd, hge]
  · intro hlt
    simp [padEnd, Nat.not_le.mpr hlt]

/-- Witness for C8 at "ab", width 4, fill character 'z'. -/
theorem c8_padEnd_left_aligned_witness :
    ("ab".length ≥ 4 → padEnd "ab" 4 (String.singleton 'z') = "ab") ∧
    ("ab".length < 4 →
      padEnd "ab" 4 (String.singleton 'z') =
        "ab" ++ strRepeat (String.singleton 'z') (4 - "ab".length)) :=
  c8_padEnd_left_aligned "ab" 4 'z'

/-- Claim C9: rendering the empty signal list yields the empty string. -/
theorem c9_empty_list_empty_output : generateAsciiArt [] = Except.ok "" := rfl

/-- Claim C10: for a string shorter than the target width, the padded
result has length `s.length + c.length * (n - s.length)`; it has length
exactly `n` iff the fill string is a single character, and a fill string
of two or more characters overshoots the target width. -/
theorem c10_padEnd_fill_string_length (s : String) (n : Nat) (c : String)
    (h : s.length < n) :
    (padEnd s n c).length = s.length + c.length * (n - s.length) ∧
      ((padEnd s n c).length = n ↔ c.length = 1) ∧
      (2 ≤ c.length → n < (padEnd s n c).length) := by
  have hlen : (padEnd s n c).length = s.length + c.length * (n - s.length) := by
    simp [padEnd, Nat.not_le.mpr h, strRepeat_length, Nat.mul_comm]
  refine ⟨hlen, ?_, ?_⟩
  · rw [hlen]
    rcases hc : c.length with _ | _ | m
    · simp
      omega
    · simp
      omega
    · have hexp : (m + 2) * (n - s.length) = m * (n - s.length) + 2 * (n - s.length) := by
        ring
      rw [hexp]
      have hmk : 0 ≤ m * (n - s.length) := Nat.zero_le _
      constructor
      · intro heq
        omega
      · intro heq
        omega
  · intro h2
    rw [hlen]
    have hmono : 2 * (n - s.length) ≤ c.length * (n - s.length) :=
      Nat.mul_le_mul_right _ h2
    omega

/-- Witness for C10 at "ab", width 5, fill string "xy": length is
2 + 2 * 3 = 8, not 5, overshooting the target. -/
theorem c10_padEnd_fill_string_length_witness :
    (padEnd "ab" 5 "xy").length = "ab".length + "xy".length * (5 - "ab".length) ∧
      ((padEnd "ab" 5 "xy").length = 5 ↔ "xy".length = 1) ∧
      (2 ≤ "xy".length → 5 < (padEnd "ab" 5 "xy").length) :=
  c10_padEnd_fill_string_length "ab" 5 "xy" (by decide)
